import Mathlib

/-!
Verification development for the ldap-operator synchronization engine.

The definitions below are a shallow embedding of the Go sources:

* `LDAPDirectory.GetDistinguishedName` and `LDAPGroup.getDistinguishedNameFuel`
  embed `api/v1alpha1/ldapdirectory_types.go` (DN derivation; Go strings.Split
  and strings.Join are modelled character-exactly by `goSplit` / `goJoin`).
  The unbounded Go recursion through parent references is modelled with an
  explicit fuel parameter: a `none` result means the recursion did not finish
  within the given fuel, and a computation that yields `none` for every fuel
  is a non-terminating one.
* `reconcile` embeds the control flow of
  `internal/controller/ldapdirectory_controller.go` as a trace-producing
  function over an input record that fixes the outcome of every external call
  (object fetch, reference resolution, secret lookup, template application,
  readiness probe).
* The directory client (`createOrUpdateEntry` etc.) is modelled from the
  specification because its implementation is not part of the provided
  sources (only its test is); see the doc comments there.
-/

namespace LdapOperator

/-! ### Go string splitting and joining (strings.Split / strings.Join) -/

/-- Model of Go `strings.Split(s, sep)` for a single-character separator,
over the character list of the string: splits around each occurrence of
`sep`, keeping empty segments, and returns `[[]]` on the empty string. -/
def goSplit (sep : Char) : List Char → List (List Char)
  | [] => [[]]
  | c :: rest =>
    if c = sep then
      [] :: goSplit sep rest
    else
      match goSplit sep rest with
      | [] => [[c]]
      | seg :: segs => (c :: seg) :: segs

/-- Model of Go `strings.Join(parts, sep)`: concatenates the parts with `sep`
interleaved. -/
def goJoin (sep : List Char) : List (List Char) → List Char
  | [] => []
  | [s] => s
  | s :: rest => s ++ sep ++ goJoin sep rest

/-- Go `strings.Join` coincides with `List.intercalate`. -/
theorem goJoin_eq_intercalate (sep : List Char) (l : List (List Char)) :
    goJoin sep l = List.intercalate sep l := by
  induction l with
  | nil => simp [goJoin, List.intercalate]
  | cons s rest ih =>
    cases rest with
    | nil => simp [goJoin, List.intercalate]
    | cons t rest2 =>
      simp only [goJoin, ih]
      simp [List.intercalate, List.intersperse]

/-- Go `strings.Split` with a single-character separator coincides with
`List.splitOn`. -/
theorem goSplit_eq_splitOn (sep : Char) (l : List Char) :
    goSplit sep l = l.splitOn sep := by
  induction l with
  | nil => simp [goSplit]
  | cons c rest ih =>
    by_cases h : c = sep
    · subst h
      simp [goSplit, ih, List.splitOn, List.splitOnP_cons]
    · have hne : (c == sep) = false := by
        simp [h]
      simp only [goSplit, if_neg h, ih]
      have : rest.splitOn sep ≠ [] := by
        simp [List.splitOn]
        exact List.splitOnP_ne_nil _ rest
      match hsplit : rest.splitOn sep with
      | [] => exact absurd hsplit this
      | seg :: segs =>
        simp only [List.splitOn] at hsplit ⊢
        rw [List.splitOnP_cons, hne]
        simp only [cond_false, hsplit]
        simp [List.modifyHead]

/-! ### LDAPDirectory (the directory root) -/

/-- Embedding of `LDAPDirectorySpec` (the fields relevant to DN computation
and reference resolution). -/
structure LDAPDirectorySpec where
  domain : String
  organization : String := ""
  deriving Repr, DecidableEq

/-- Embedding of `LDAPDirectory.GetDistinguishedName`:
`return "dc=" + strings.Join(strings.Split(s.Spec.Domain, "."), ",dc="), nil`.
The `Except` result mirrors the Go `(string, error)` pair; the source always
returns a nil error. -/
def LDAPDirectory.GetDistinguishedName (d : LDAPDirectorySpec) : Except String String :=
  Except.ok (String.mk ("dc=".data ++ goJoin ",dc=".data (goSplit '.' d.domain.data)))

/-! ### LDAPGroup and the reference environment -/

/-- Embedding of `LDAPGroupSpec`: the inline `api.LDAPObjectSpec` contributes
`directoryRef` (mandatory, by name) and `parentRef` (optional, by name);
the group itself has a common name, an optional description, and members. -/
structure LDAPGroupSpec where
  name : String
  directoryRef : String
  parentRef : Option String := none
  description : String := ""
  members : List String := []
  deriving Repr, DecidableEq

/-- The control-plane contents visible to `reference.Resolve`: directories and
groups keyed by their object name.  A lookup either finds the object or does
not (the target does not exist); this is exactly the `(ok=false, err=nil)`
outcome of the resolver against the fake reader. -/
structure Env where
  directories : List (String × LDAPDirectorySpec)
  groups : List (String × LDAPGroupSpec)

def Env.lookupDirectory (env : Env) (n : String) : Option LDAPDirectorySpec :=
  (env.directories.find? (fun p => p.1 == n)).map Prod.snd

def Env.lookupGroup (env : Env) (n : String) : Option LDAPGroupSpec :=
  (env.groups.find? (fun p => p.1 == n)).map Prod.snd

/-- Embedding of `LDAPGroup.GetDistinguishedName`.  The Go method recurses
through `parentObj.GetDistinguishedName` with no depth bound and no visited
set; the recursion is made well-founded here by an explicit fuel argument.
`none` means the computation did not finish within `fuel` steps — the Go
original simply keeps recursing.  Every other aspect follows the source
line by line: a set but unresolvable parent reference yields the error
`referenced parent not found`; with no parent reference, an unresolvable
directory reference yields `referenced directory not found`; otherwise the
DN is `"cn=" + name + "," + parentDN` (resp. `+ directoryDN`). -/
def LDAPGroup.getDistinguishedNameFuel (env : Env) : Nat → LDAPGroupSpec → Option (Except String String)
  | 0, _ => none
  | fuel + 1, g =>
    match g.parentRef with
    | some pname =>
      match env.lookupGroup pname with
      | none => some (Except.error "referenced parent not found")
      | some parent =>
        match LDAPGroup.getDistinguishedNameFuel env fuel parent with
        | none => none
        | some (Except.error e) => some (Except.error e)
        | some (Except.ok parentDN) => some (Except.ok ("cn=" ++ g.name ++ "," ++ parentDN))
    | none =>
      match env.lookupDirectory g.directoryRef with
      | none => some (Except.error "referenced directory not found")
      | some d =>
        match LDAPDirectory.GetDistinguishedName d with
        | Except.error e => some (Except.error e)
        | Except.ok directoryDN => some (Except.ok ("cn=" ++ g.name ++ "," ++ directoryDN))

/-- Embedding of `LDAPGroup.ResolveReferences`: resolve the directory
reference, then the parent reference if set; a missing target is reported as
`(false, nil)` and a capable target as `(true, nil)`.  The returned pair
mirrors the Go `(bool, error)`. -/
def LDAPGroup.ResolveReferences (env : Env) (g : LDAPGroupSpec) : Bool × Option String :=
  match env.lookupDirectory g.directoryRef with
  | none => (false, none)
  | some _ =>
    match g.parentRef with
    | none => (true, none)
    | some pname =>
      match env.lookupGroup pname with
      | none => (false, none)
      | some _ => (true, none)

/-- The parent chain of `g` reaches the directory root in `n` resolvable
steps: with no parent reference the directory reference resolves, and with a
parent reference the parent resolves and itself reaches the root in `n`
steps.  This is the "finite, acyclic, ends at a DirectoryRoot" hypothesis of
the termination claim. -/
inductive ReachesRoot (env : Env) : LDAPGroupSpec → Nat → Prop
  | root (g : LDAPGroupSpec) (d : LDAPDirectorySpec)
      (hp : g.parentRef = none)
      (hd : env.lookupDirectory g.directoryRef = some d) :
      ReachesRoot env g 0
  | step (g parent : LDAPGroupSpec) (pname : String) (n : Nat)
      (hp : g.parentRef = some pname)
      (hl : env.lookupGroup pname = some parent)
      (hr : ReachesRoot env parent n) :
      ReachesRoot env g (n + 1)

/-- A set of groups is parent-closed when every member's parent reference is
set and resolves to another member.  A cycle of parent references is such a
set (take the groups on the cycle), so membership in a parent-closed set is
the hypothesis of the non-termination half of the cycle claim. -/
def ParentClosed (env : Env) (s : List LDAPGroupSpec) : Prop :=
  ∀ g ∈ s, ∃ pname parent, g.parentRef = some pname ∧
    env.lookupGroup pname = some parent ∧ parent ∈ s

/-! ### Concrete environments used by witnesses -/

/-- A root with domain `example.com` and a single group `admins` under it. -/
def envSimple : Env :=
  { directories := [("example", { domain := "example.com" })]
    groups := [("admins", { name := "admins", directoryRef := "example" })] }

def adminsGroup : LDAPGroupSpec := { name := "admins", directoryRef := "example" }

/-- An environment whose single group is its own parent: a reference cycle. -/
def envCyclic : Env :=
  { directories := [("example", { domain := "example.com" })]
    groups := [("loop", { name := "loop", directoryRef := "example", parentRef := some "loop" })] }

def loopGroup : LDAPGroupSpec :=
  { name := "loop", directoryRef := "example", parentRef := some "loop" }

/-- A group whose parent reference names a non-existent object. -/
def orphanGroup : LDAPGroupSpec :=
  { name := "orphan", directoryRef := "example", parentRef := some "missing" }

/-! ### Claim C2: directory DN derivation -/

/-- C2: `LDAPDirectory.GetDistinguishedName` returns, for every directory,
exactly `"dc="` followed by the domain split on `"."` and joined with
`",dc="`, never an error; in particular domain `a.b.c` yields
`dc=a,dc=b,dc=c`. -/
theorem ldapDirectory_dn_splits_domain :
    (∀ d : LDAPDirectorySpec,
      LDAPDirectory.GetDistinguishedName d =
        Except.ok (String.mk ("dc=".data ++
          List.intercalate ",dc=".data (List.splitOn '.' d.domain.data)))) ∧
    LDAPDirectory.GetDistinguishedName { domain := "a.b.c" } = Except.ok "dc=a,dc=b,dc=c" := by
  constructor
  · intro d
    simp [LDAPDirectory.GetDistinguishedName, goJoin_eq_intercalate, goSplit_eq_splitOn]
  · rfl

/-! ### Claim C1: group DN is rdn, comma, parent DN -/

/-- C1: whenever the group DN computation succeeds, the result is
`"cn=" ++ name ++ ","` followed by the parent's DN when a parent reference
is set, and by the owning directory's DN suffix otherwise. -/
theorem ldapGroup_dn_rdn_comma_parent (env : Env) (g : LDAPGroupSpec) (fuel : Nat)
    (dn : String)
    (h : LDAPGroup.getDistinguishedNameFuel env fuel g = some (Except.ok dn)) :
    ∃ rest, dn = "cn=" ++ g.name ++ "," ++ rest ∧
      ((∃ pname parent, g.parentRef = some pname ∧ env.lookupGroup pname = some parent ∧
          LDAPGroup.getDistinguishedNameFuel env (fuel - 1) parent = some (Except.ok rest)) ∨
       (g.parentRef = none ∧ ∃ d, env.lookupDirectory g.directoryRef = some d ∧
          LDAPDirectory.GetDistinguishedName d = Except.ok rest)) := by
  match fuel with
  | 0 => simp [LDAPGroup.getDistinguishedNameFuel] at h
  | f + 1 =>
    unfold LDAPGroup.getDistinguishedNameFuel at h
    cases hp : g.parentRef with
    | some pname =>
      simp only [hp] at h
      cases hl : env.lookupGroup pname with
      | none => simp only [hl] at h; simp at h
      | some parent =>
        simp only [hl] at h
        cases hrec : LDAPGroup.getDistinguishedNameFuel env f parent with
        | none => simp only [hrec] at h; simp at h
        | some res =>
          simp only [hrec] at h
          cases res with
          | error e => simp at h
          | ok parentDN =>
            simp only [Option.some.injEq, Except.ok.injEq] at h
            exact ⟨parentDN, h.symm, Or.inl ⟨pname, parent, rfl, hl, by simpa using hrec⟩⟩
    | none =>
      simp only [hp] at h
      cases hd : env.lookupDirectory g.directoryRef with
      | none => simp only [hd] at h; simp at h
      | some d =>
        simp only [hd] at h
        cases hdn : LDAPDirectory.GetDistinguishedName d with
        | error e => simp only [hdn] at h; simp at h
        | ok directoryDN =>
          simp only [hdn] at h
          simp only [Option.some.injEq, Except.ok.injEq] at h
          exact ⟨directoryDN, h.symm, Or.inr ⟨rfl, d, rfl, hdn⟩⟩

/-- Witness for C1 at the concrete environment: the group `admins` with no
parent under the root with domain `example.com`. -/
theorem ldapGroup_dn_rdn_comma_parent_witness :
    ∃ rest, "cn=admins,dc=example,dc=com" = "cn=" ++ adminsGroup.name ++ "," ++ rest ∧
      ((∃ pname parent, adminsGroup.parentRef = some pname ∧
          envSimple.lookupGroup pname = some parent ∧
          LDAPGroup.getDistinguishedNameFuel envSimple (1 - 1) parent = some (Except.ok rest)) ∨
       (adminsGroup.parentRef = none ∧
        ∃ d, envSimple.lookupDirectory adminsGroup.directoryRef = some d ∧
          LDAPDirectory.GetDistinguishedName d = Except.ok rest)) :=
  ldapGroup_dn_rdn_comma_parent envSimple adminsGroup 1 "cn=admins,dc=example,dc=com" rfl

/-! ### Claim C9: termination on acyclic chains, divergence on cycles -/

/-- Helper: a group inside a parent-closed set never finishes the DN
computation, whatever the fuel. -/
theorem getDN_none_of_parentClosed (env : Env) (s : List LDAPGroupSpec)
    (hs : ParentClosed env s) :
    ∀ fuel, ∀ g ∈ s, LDAPGroup.getDistinguishedNameFuel env fuel g = none := by
  intro fuel
  induction fuel with
  | zero => intro g _; rfl
  | succ f ih =>
    intro g hg
    obtain ⟨pname, parent, hp, hl, hmem⟩ := hs g hg
    unfold LDAPGroup.getDistinguishedNameFuel
    simp only [hp, hl, ih parent hmem]

/-- Helper: a group whose parent chain reaches the root in `n` steps gets a
DN for every fuel strictly greater than `n`. -/
theorem getDN_ok_of_reachesRoot (env : Env) (g : LDAPGroupSpec) (n : Nat)
    (h : ReachesRoot env g n) :
    ∀ fuel, n < fuel →
      ∃ dn, LDAPGroup.getDistinguishedNameFuel env fuel g = some (Except.ok dn) := by
  induction h with
  | root g d hp hd =>
    intro fuel hfuel
    match fuel, hfuel with
    | f + 1, _ =>
      unfold LDAPGroup.getDistinguishedNameFuel
      simp only [hp, hd, LDAPDirectory.GetDistinguishedName]
      exact ⟨_, rfl⟩
  | step g parent pname n hp hl hr ih =>
    intro fuel hfuel
    match fuel, hfuel with
    | f + 1, hfuel =>
      obtain ⟨pdn, hpdn⟩ := ih f (Nat.lt_of_succ_lt_succ hfuel)
      unfold LDAPGroup.getDistinguishedNameFuel
      simp only [hp, hl, hpdn]
      exact ⟨_, rfl⟩

/-- C9: the DN recursion has no visited set and no depth bound — it
terminates (with a successful result) whenever the parent chain is finite,
acyclic and ends at a directory root, and it never terminates (runs out of
every fuel) for a group on a parent-reference cycle, i.e. inside a
parent-closed set. -/
theorem ldapGroup_dn_termination :
    (∀ env (g : LDAPGroupSpec) n, ReachesRoot env g n → ∀ fuel, n < fuel →
      ∃ dn, LDAPGroup.getDistinguishedNameFuel env fuel g = some (Except.ok dn)) ∧
    (∀ env s (g : LDAPGroupSpec), ParentClosed env s → g ∈ s → ∀ fuel,
      LDAPGroup.getDistinguishedNameFuel env fuel g = none) :=
  ⟨fun env g n h => getDN_ok_of_reachesRoot env g n h,
   fun env s g hs hg fuel => getDN_none_of_parentClosed env s hs fuel g hg⟩

/-- Witness for C9: `admins` (directly under the root) gets its DN with any
positive fuel, while the self-parenting group `loop` exhausts every fuel,
here fuel 7. -/
theorem ldapGroup_dn_termination_witness :
    (∃ dn, LDAPGroup.getDistinguishedNameFuel envSimple 1 adminsGroup = some (Except.ok dn)) ∧
    LDAPGroup.getDistinguishedNameFuel envCyclic 7 loopGroup = none :=
  ⟨ldapGroup_dn_termination.1 envSimple adminsGroup 0
      (ReachesRoot.root adminsGroup { domain := "example.com" } rfl rfl) 1 Nat.one_pos,
   ldapGroup_dn_termination.2 envCyclic [loopGroup] loopGroup
      (fun g hg => by
        cases hg with
        | head => exact ⟨"loop", loopGroup, rfl, rfl, List.mem_singleton.mpr rfl⟩
        | tail _ hmem => cases hmem)
      (List.mem_singleton.mpr rfl) 7⟩

/-! ### Claim C10: missing targets are DN-time errors, unresolved only in ResolveReferences -/

/-- C10: when a reference target does not exist, `GetDistinguishedName`
returns an error (`referenced parent not found` / `referenced directory not
found`), while `ResolveReferences` reports the same situation as the
unresolved signal `(false, nil)`. -/
theorem ldapGroup_dn_error_vs_unresolved (env : Env) (g : LDAPGroupSpec) (fuel : Nat) :
    (∀ pname, g.parentRef = some pname → env.lookupGroup pname = none →
      LDAPGroup.getDistinguishedNameFuel env (fuel + 1) g =
          some (Except.error "referenced parent not found") ∧
        LDAPGroup.ResolveReferences env g = (false, none)) ∧
    (g.parentRef = none → env.lookupDirectory g.directoryRef = none →
      LDAPGroup.getDistinguishedNameFuel env (fuel + 1) g =
          some (Except.error "referenced directory not found") ∧
        LDAPGroup.ResolveReferences env g = (false, none)) := by
  constructor
  · intro pname hp hl
    constructor
    · unfold LDAPGroup.getDistinguishedNameFuel
      simp only [hp, hl]
    · unfold LDAPGroup.ResolveReferences
      cases hd : env.lookupDirectory g.directoryRef with
      | none => rfl
      | some d => simp only [hp, hl]
  · intro hp hd
    constructor
    · unfold LDAPGroup.getDistinguishedNameFuel
      simp only [hp, hd]
    · unfold LDAPGroup.ResolveReferences
      simp only [hd]

/-- Witness for C10, first conjunct: the group `orphan` in `envSimple` has a
parent reference to the non-existent object `missing`. -/
theorem ldapGroup_dn_error_vs_unresolved_witness :
    LDAPGroup.getDistinguishedNameFuel envSimple 1 orphanGroup =
        some (Except.error "referenced parent not found") ∧
      LDAPGroup.ResolveReferences envSimple orphanGroup = (false, none) :=
  (ldapGroup_dn_error_vs_unresolved envSimple orphanGroup 0).1 "missing" rfl rfl

/-! ### The LDAPDirectory reconciler

`internal/controller/ldapdirectory_controller.go` is embedded as a
trace-producing function: every interaction with the control plane or the
cluster (event emission, status update, finalizer patch, secret creation,
statefulset/service apply) becomes an `Effect` in an output trace, and the
outcome of every external call the controller makes is fixed up front by a
`ReconcileInput` record, one field per fallible call, in the order the
source performs them. -/

/-- Phases of `LDAPDirectoryStatus.Phase` (`unset` is the zero value). -/
inductive DirPhase
  | unset | pending | ready | failed
  deriving Repr, DecidableEq

/-- Observable side effects of one reconcile pass, in program order. -/
inductive Effect
  | addFinalizer
  | removeFinalizer
  | event (etype reason : String)
  | updateStatus (phase : DirPhase) (message : String)
  | createSecret (passwordLength : Nat)
  | applyStatefulSet
  | applyService
  deriving Repr, DecidableEq

/-- Result of `Reconcile`: the `ctrl.Result`/`error` pair, with
`RequeueAfter` in seconds. -/
structure ReconcileResult where
  requeueAfterSeconds : Option Nat
  error : Option String
  deriving Repr, DecidableEq

/-- Outcome of the initial `r.Get` of the directory object. -/
inductive GetOutcome
  | found | notFound | getError (msg : String)
  deriving Repr, DecidableEq

/-- Outcome of `directory.ResolveReferences`: `(true, nil)`, `(false, nil)`
or `(_, err)`. -/
inductive ResolveOutcome
  | resolved | unresolved | resolveError (msg : String)
  deriving Repr, DecidableEq

/-- Outcome of the `r.Get` of the admin password secret. -/
inductive SecretGetOutcome
  | present | absent | getError (msg : String)
  deriving Repr, DecidableEq

/-- Outcome of `isStatefulSetReady`. -/
inductive ReadyOutcome
  | ready | notReady | readyError (msg : String)
  deriving Repr, DecidableEq

/-- One reconcile invocation's view of the world: the state of the object
and the outcome of each external call, in source order. -/
structure ReconcileInput where
  getOutcome : GetOutcome
  hasFinalizer : Bool
  finalizerPatchError : Option String
  deleting : Bool
  removalPatchError : Option String
  resolveOutcome : ResolveOutcome
  statusUpdateError : Option String
  secretGetOutcome : SecretGetOutcome
  passwordGenError : Option String
  ownerRefError : Option String
  secretCreateError : Option String
  stsTemplateError : Option String
  stsApplyError : Option String
  svcTemplateError : Option String
  svcApplyError : Option String
  readyOutcome : ReadyOutcome
  phase : DirPhase
  deriving Repr, DecidableEq

/-- Embedding of the `adminPasswordLength` constant. -/
def adminPasswordLength : Nat := 32

/-- Embedding of the `reconcileRetryInterval` constant (5 * time.Second). -/
def reconcileRetryIntervalSeconds : Nat := 5

/-- Shared shape of every `Eventf(Warning, "Failed") ; markFailed ; return err`
exit of the source. -/
def failedReturn (msg : String) : List Effect × ReconcileResult :=
  ([Effect.event "Warning" "Failed", Effect.updateStatus DirPhase.failed msg],
   { requeueAfterSeconds := none, error := some msg })

/-- Effects of `markPending` (the status read-modify-write attempt). -/
def markPendingEffect : Effect :=
  Effect.updateStatus DirPhase.pending "LDAP directory is pending"

/-- Embedding of the statefulset-readiness tail of `Reconcile` (lines
229-262): readiness check, `markPending` + 5s requeue when not ready,
`markReady` on the transition into Ready. -/
def readyStage (inp : ReconcileInput) : List Effect × ReconcileResult :=
  match inp.readyOutcome with
  | ReadyOutcome.readyError m =>
    failedReturn ("failed to check if statefulset is ready: " ++ m)
  | ReadyOutcome.notReady =>
    match inp.statusUpdateError with
    | some m =>
      ([Effect.event "Normal" "Pending", markPendingEffect],
       { requeueAfterSeconds := none, error := some ("failed to mark as pending: " ++ m) })
    | none =>
      ([Effect.event "Normal" "Pending", markPendingEffect],
       { requeueAfterSeconds := some reconcileRetryIntervalSeconds, error := none })
  | ReadyOutcome.ready =>
    if inp.phase = DirPhase.ready then
      ([], { requeueAfterSeconds := none, error := none })
    else
      match inp.statusUpdateError with
      | some m =>
        ([Effect.event "Normal" "Created",
          Effect.updateStatus DirPhase.ready "LDAP directory is ready"],
         { requeueAfterSeconds := none, error := some ("failed to mark as ready: " ++ m) })
      | none =>
        ([Effect.event "Normal" "Created",
          Effect.updateStatus DirPhase.ready "LDAP directory is ready"],
         { requeueAfterSeconds := none, error := none })

/-- Embedding of the service template/apply block (lines 206-227). -/
def svcStage (inp : ReconcileInput) : List Effect × ReconcileResult :=
  match inp.svcTemplateError with
  | some m => failedReturn ("failed to generate service template: " ++ m)
  | none =>
    match inp.svcApplyError with
    | some m =>
      (Effect.applyService :: (failedReturn ("failed to reconcile service: " ++ m)).1,
       (failedReturn ("failed to reconcile service: " ++ m)).2)
    | none =>
      (Effect.applyService :: (readyStage inp).1, (readyStage inp).2)

/-- Embedding of the statefulset template/apply block (lines 183-204). -/
def stsStage (inp : ReconcileInput) : List Effect × ReconcileResult :=
  match inp.stsTemplateError with
  | some m => failedReturn ("failed to generate statefulset template: " ++ m)
  | none =>
    match inp.stsApplyError with
    | some m =>
      (Effect.applyStatefulSet :: (failedReturn ("failed to reconcile statefulset: " ++ m)).1,
       (failedReturn ("failed to reconcile statefulset: " ++ m)).2)
    | none =>
      (Effect.applyStatefulSet :: (svcStage inp).1, (svcStage inp).2)

/-- Embedding of the admin password secret block (lines 152-181): look the
secret up; when it is not found, generate a random password of
`adminPasswordLength`, set the owner reference and create the secret; when
it exists, do nothing and fall through. -/
def secretStage (inp : ReconcileInput) : List Effect × ReconcileResult :=
  match inp.secretGetOutcome with
  | SecretGetOutcome.getError m =>
    ([], { requeueAfterSeconds := none, error := some ("failed to get admin password secret: " ++ m) })
  | SecretGetOutcome.absent =>
    match inp.passwordGenError with
    | some m =>
      ([], { requeueAfterSeconds := none,
             error := some ("failed to generate random admin password: " ++ m) })
    | none =>
      match inp.ownerRefError with
      | some m =>
        ([], { requeueAfterSeconds := none,
               error := some ("failed to set owner reference on admin password secret: " ++ m) })
      | none =>
        match inp.secretCreateError with
        | some m =>
          ([Effect.createSecret adminPasswordLength],
           { requeueAfterSeconds := none,
             error := some ("failed to create admin password secret: " ++ m) })
        | none =>
          (Effect.createSecret adminPasswordLength :: (stsStage inp).1, (stsStage inp).2)
  | SecretGetOutcome.present => stsStage inp

/-- Embedding of the reference resolution block (lines 126-146) and
everything after it: `(false, nil)` emits the NotReady warning, marks
Pending and requeues after the retry interval; an error emits the Failed
warning, marks Failed and surfaces the error with no requeue. -/
def resolveStage (inp : ReconcileInput) : List Effect × ReconcileResult :=
  match inp.resolveOutcome with
  | ResolveOutcome.unresolved =>
    match inp.statusUpdateError with
    | some m =>
      ([Effect.event "Warning" "NotReady", markPendingEffect],
       { requeueAfterSeconds := none, error := some ("failed to mark as pending: " ++ m) })
    | none =>
      ([Effect.event "Warning" "NotReady", markPendingEffect],
       { requeueAfterSeconds := some reconcileRetryIntervalSeconds, error := none })
  | ResolveOutcome.resolveError m =>
    ([Effect.event "Warning" "Failed",
      Effect.updateStatus DirPhase.failed ("failed to resolve references: " ++ m)],
     { requeueAfterSeconds := none, error := some ("failed to resolve references: " ++ m) })
  | ResolveOutcome.resolved => secretStage inp

/-- Embedding of the deletion branch (lines 104-124) and the dispatch into
the creation/update path.  After the finalizer-adding block the in-memory
object always carries the finalizer, so the deletion branch always attempts
the removal patch. -/
def afterFinalizerStage (inp : ReconcileInput) : List Effect × ReconcileResult :=
  if inp.deleting then
    match inp.removalPatchError with
    | some m =>
      ([Effect.removeFinalizer],
       { requeueAfterSeconds := none, error := some ("failed to remove finalizer: " ++ m) })
    | none =>
      ([Effect.removeFinalizer], { requeueAfterSeconds := none, error := none })
  else resolveStage inp

/-- Embedding of `LDAPDirectoryReconciler.Reconcile`: fetch the object, add
the finalizer when missing, then handle deletion or run the
creation/update path. -/
def reconcile (inp : ReconcileInput) : List Effect × ReconcileResult :=
  match inp.getOutcome with
  | GetOutcome.notFound => ([], { requeueAfterSeconds := none, error := none })
  | GetOutcome.getError m => ([], { requeueAfterSeconds := none, error := some m })
  | GetOutcome.found =>
    match inp.hasFinalizer, inp.finalizerPatchError with
    | false, some m =>
      ([Effect.addFinalizer],
       { requeueAfterSeconds := none, error := some ("failed to add finalizer: " ++ m) })
    | false, none =>
      (Effect.addFinalizer :: (afterFinalizerStage inp).1, (afterFinalizerStage inp).2)
    | true, _ => afterFinalizerStage inp

/-! ### Concrete reconcile inputs used by witnesses -/

/-- A healthy steady-state input: object found, finalizer present, nothing
failing. -/
def inputBase : ReconcileInput :=
  { getOutcome := GetOutcome.found
    hasFinalizer := true
    finalizerPatchError := none
    deleting := false
    removalPatchError := none
    resolveOutcome := ResolveOutcome.resolved
    statusUpdateError := none
    secretGetOutcome := SecretGetOutcome.present
    passwordGenError := none
    ownerRefError := none
    secretCreateError := none
    stsTemplateError := none
    stsApplyError := none
    svcTemplateError := none
    svcApplyError := none
    readyOutcome := ReadyOutcome.ready
    phase := DirPhase.ready }

def inputUnresolved : ReconcileInput :=
  { inputBase with resolveOutcome := ResolveOutcome.unresolved }

def inputResolveError : ReconcileInput :=
  { inputBase with resolveOutcome := ResolveOutcome.resolveError "boom" }

def inputSecretAbsent : ReconcileInput :=
  { inputBase with secretGetOutcome := SecretGetOutcome.absent }

/-! ### Claim C3: unresolved requeues after 5s, resolution errors fail -/

/-- C3: on a non-deleting object, an unresolved reference resolution marks
the phase Pending, emits the NotReady warning and returns success with a
requeue after exactly 5 seconds, while a resolution error marks the phase
Failed with the error message, returns the error and schedules no
5-second requeue. -/
theorem reconcile_resolve_distinction (inp : ReconcileInput)
    (hget : inp.getOutcome = GetOutcome.found)
    (hfin : inp.finalizerPatchError = none)
    (hdel : inp.deleting = false) :
    (inp.resolveOutcome = ResolveOutcome.unresolved → inp.statusUpdateError = none →
      (reconcile inp).2 = { requeueAfterSeconds := some 5, error := none } ∧
      Effect.event "Warning" "NotReady" ∈ (reconcile inp).1 ∧
      Effect.updateStatus DirPhase.pending "LDAP directory is pending" ∈ (reconcile inp).1) ∧
    (∀ m, inp.resolveOutcome = ResolveOutcome.resolveError m →
      (reconcile inp).2 =
        { requeueAfterSeconds := none
          error := some ("failed to resolve references: " ++ m) } ∧
      Effect.updateStatus DirPhase.failed ("failed to resolve references: " ++ m) ∈
        (reconcile inp).1) := by
  cases hf : inp.hasFinalizer <;>
  · constructor
    · intro hres hstat
      simp [reconcile, hget, hfin, hf, afterFinalizerStage, hdel, resolveStage, hres, hstat,
        markPendingEffect, reconcileRetryIntervalSeconds]
    · intro m hres
      simp [reconcile, hget, hfin, hf, afterFinalizerStage, hdel, resolveStage, hres]

/-- Witness for C3, applying the theorem to a concrete unresolved input and
a concrete resolution-error input. -/
theorem reconcile_resolve_distinction_witness :
    ((reconcile inputUnresolved).2 = { requeueAfterSeconds := some 5, error := none } ∧
      Effect.event "Warning" "NotReady" ∈ (reconcile inputUnresolved).1 ∧
      Effect.updateStatus DirPhase.pending "LDAP directory is pending" ∈
        (reconcile inputUnresolved).1) ∧
    ((reconcile inputResolveError).2 =
        { requeueAfterSeconds := none
          error := some ("failed to resolve references: " ++ "boom") } ∧
      Effect.updateStatus DirPhase.failed ("failed to resolve references: " ++ "boom") ∈
        (reconcile inputResolveError).1) :=
  ⟨(reconcile_resolve_distinction inputUnresolved rfl rfl rfl).1 rfl rfl,
   (reconcile_resolve_distinction inputResolveError rfl rfl rfl).2 "boom" rfl⟩

/-! ### Claim C7: the finalizer is attached before any other mutation -/

/-- Mutations other than finalizer patches: status updates, secret creation
and downstream-resource applies. -/
def isNonFinalizerMutation : Effect → Bool
  | Effect.updateStatus _ _ => true
  | Effect.createSecret _ => true
  | Effect.applyStatefulSet => true
  | Effect.applyService => true
  | _ => false

/-- Scans a trace left to right, tracking whether the finalizer is on the
object, and reports whether every non-finalizer mutation happens with the
finalizer already present. -/
def finalizerBeforeMutations : Bool → List Effect → Bool
  | _, [] => true
  | _, Effect.addFinalizer :: rest => finalizerBeforeMutations true rest
  | hasF, e :: rest =>
    if isNonFinalizerMutation e && !hasF then false
    else finalizerBeforeMutations hasF rest

/-- Once the finalizer is present, the scan can no longer fail. -/
theorem finalizerBeforeMutations_true (l : List Effect) :
    finalizerBeforeMutations true l = true := by
  induction l with
  | nil => rfl
  | cons e rest ih =>
    cases e <;> simp [finalizerBeforeMutations, isNonFinalizerMutation, ih]

/-- C7: on every reconcile invocation, any status update, secret creation or
downstream apply in the emitted trace happens only after the finalizer is on
the object — either it already was, or the trace's `addFinalizer` precedes
the mutation. -/
theorem reconcile_finalizer_before_mutations (inp : ReconcileInput) :
    finalizerBeforeMutations inp.hasFinalizer (reconcile inp).1 = true := by
  cases hget : inp.getOutcome with
  | notFound => cases inp.hasFinalizer <;> simp [reconcile, hget, finalizerBeforeMutations]
  | getError m => cases inp.hasFinalizer <;> simp [reconcile, hget, finalizerBeforeMutations]
  | found =>
    cases hf : inp.hasFinalizer with
    | true =>
      simp only [reconcile, hget, hf]
      exact finalizerBeforeMutations_true _
    | false =>
      cases hfe : inp.finalizerPatchError with
      | some m =>
        simp [reconcile, hget, hf, hfe, finalizerBeforeMutations]
      | none =>
        simp only [reconcile, hget, hf, hfe, finalizerBeforeMutations]
        exact finalizerBeforeMutations_true _

/-! ### Claim C8: the admin password secret is created exactly once -/

/-- The tail after the secret block never touches the secret. -/
theorem createSecret_not_in_readyStage (inp : ReconcileInput) (n : Nat) :
    Effect.createSecret n ∉ (readyStage inp).1 := by
  cases hr : inp.readyOutcome with
  | readyError m => simp [readyStage, hr, failedReturn]
  | notReady => cases hs : inp.statusUpdateError <;> simp [readyStage, hr, hs, markPendingEffect]
  | ready =>
    by_cases hp : inp.phase = DirPhase.ready
    · simp [readyStage, hr, hp]
    · cases hs : inp.statusUpdateError <;> simp [readyStage, hr, hp, hs]

theorem createSecret_not_in_svcStage (inp : ReconcileInput) (n : Nat) :
    Effect.createSecret n ∉ (svcStage inp).1 := by
  cases ht : inp.svcTemplateError with
  | some m => simp [svcStage, ht, failedReturn]
  | none =>
    cases ha : inp.svcApplyError with
    | some m => simp [svcStage, ht, ha, failedReturn]
    | none =>
      simp only [svcStage, ht, ha, List.mem_cons]
      rintro (h | h)
      · cases h
      · exact createSecret_not_in_readyStage inp n h

theorem createSecret_not_in_stsStage (inp : ReconcileInput) (n : Nat) :
    Effect.createSecret n ∉ (stsStage inp).1 := by
  cases ht : inp.stsTemplateError with
  | some m => simp [stsStage, ht, failedReturn]
  | none =>
    cases ha : inp.stsApplyError with
    | some m => simp [stsStage, ht, ha, failedReturn]
    | none =>
      simp only [stsStage, ht, ha, List.mem_cons]
      rintro (h | h)
      · cases h
      · exact createSecret_not_in_svcStage inp n h

/-- A `createSecret` in the secret block's trace always requests the fixed
password length and only happens when the secret was not found. -/
theorem createSecret_in_secretStage (inp : ReconcileInput) (n : Nat)
    (h : Effect.createSecret n ∈ (secretStage inp).1) :
    n = adminPasswordLength ∧ inp.secretGetOutcome = SecretGetOutcome.absent := by
  cases hs : inp.secretGetOutcome with
  | getError m => simp [secretStage, hs] at h
  | present =>
    rw [secretStage, hs] at h
    exact absurd h (createSecret_not_in_stsStage inp n)
  | absent =>
    refine ⟨?_, rfl⟩
    rw [secretStage, hs] at h
    cases hg : inp.passwordGenError with
    | some m => rw [hg] at h; simp at h
    | none =>
      rw [hg] at h
      cases ho : inp.ownerRefError with
      | some m => rw [ho] at h; simp at h
      | none =>
        rw [ho] at h
        cases hc : inp.secretCreateError with
        | some m => rw [hc] at h; simpa using h
        | none =>
          rw [hc] at h
          rcases List.mem_cons.mp h with h | h
          · cases h; rfl
          · exact absurd h (createSecret_not_in_stsStage inp n)

theorem createSecret_in_resolveStage (inp : ReconcileInput) (n : Nat)
    (h : Effect.createSecret n ∈ (resolveStage inp).1) :
    n = adminPasswordLength ∧ inp.secretGetOutcome = SecretGetOutcome.absent := by
  cases hr : inp.resolveOutcome with
  | unresolved =>
    rw [resolveStage, hr] at h
    cases hs : inp.statusUpdateError <;> rw [hs] at h <;> simp [markPendingEffect] at h
  | resolveError m => rw [resolveStage, hr] at h; simp at h
  | resolved =>
    rw [resolveStage, hr] at h
    exact createSecret_in_secretStage inp n h

theorem createSecret_in_afterFinalizerStage (inp : ReconcileInput) (n : Nat)
    (h : Effect.createSecret n ∈ (afterFinalizerStage inp).1) :
    n = adminPasswordLength ∧ inp.secretGetOutcome = SecretGetOutcome.absent := by
  by_cases hd : inp.deleting
  · rw [afterFinalizerStage, if_pos hd] at h
    cases hre : inp.removalPatchError <;> rw [hre] at h <;> simp at h
  · rw [afterFinalizerStage, if_neg hd] at h
    exact createSecret_in_resolveStage inp n h

/-- C8: the per-directory admin password secret is written only when it does
not exist, always with the fixed generated-password length 32; when the
secret already exists no reconcile pass emits any secret write. -/
theorem reconcile_admin_secret_once (inp : ReconcileInput) :
    (∀ n, Effect.createSecret n ∈ (reconcile inp).1 →
      n = 32 ∧ inp.secretGetOutcome = SecretGetOutcome.absent) ∧
    (inp.getOutcome = GetOutcome.found → inp.finalizerPatchError = none →
      inp.deleting = false → inp.resolveOutcome = ResolveOutcome.resolved →
      inp.secretGetOutcome = SecretGetOutcome.absent →
      inp.passwordGenError = none → inp.ownerRefError = none →
      Effect.createSecret 32 ∈ (reconcile inp).1) := by
  constructor
  · intro n h
    have hmem : Effect.createSecret n ∈ (afterFinalizerStage inp).1 := by
      cases hget : inp.getOutcome with
      | notFound => rw [reconcile, hget] at h; simp at h
      | getError m => rw [reconcile, hget] at h; simp at h
      | found =>
        rw [reconcile, hget] at h
        cases hf : inp.hasFinalizer with
        | true => rw [hf] at h; exact h
        | false =>
          rw [hf] at h
          cases hfe : inp.finalizerPatchError with
          | some m => rw [hfe] at h; simp at h
          | none =>
            rw [hfe] at h
            rcases List.mem_cons.mp h with h | h
            · cases h
            · exact h
    have := createSecret_in_afterFinalizerStage inp n hmem
    exact ⟨this.1, this.2⟩
  · intro hget hfe hd hres hs hg ho
    have hmem : Effect.createSecret 32 ∈ (secretStage inp).1 := by
      rw [secretStage, hs, hg, ho]
      cases hc : inp.secretCreateError with
      | some m => simp [adminPasswordLength]
      | none => simp [adminPasswordLength]
    have hmem2 : Effect.createSecret 32 ∈ (afterFinalizerStage inp).1 := by
      rw [afterFinalizerStage, if_neg (by simp [hd]), resolveStage, hres]
      exact hmem
    rw [reconcile, hget]
    cases hf : inp.hasFinalizer with
    | true => exact hmem2
    | false =>
      rw [hfe]
      exact List.mem_cons.mpr (Or.inr hmem2)

/-- Witness for C8's creation half: with the secret absent and everything
else healthy, the reconcile trace creates the secret with password
length 32. -/
theorem reconcile_admin_secret_once_witness :
    Effect.createSecret 32 ∈ (reconcile inputSecretAbsent).1 :=
  (reconcile_admin_secret_once inputSecretAbsent).2 rfl rfl rfl rfl rfl rfl rfl

/-! ### The directory client

The implementation of `internal/directory/client.go` is not part of the
provided sources — only its test is — so the client is modelled from the
specification (spec sections 4.3 and 4.4) and pinned against the behavior
the test in `internal/directory/client_test.go` asserts. -/

/-- A directory entry's attributes: attribute name to one-or-many values. -/
abbrev AttrList := List (String × List String)

def attrLookup (attrs : AttrList) (k : String) : Option (List String) :=
  (attrs.find? (fun p => p.1 == k)).map Prod.snd

/-- Attribute sets compared as finite maps (name-to-values). -/
def attrsEquiv (a b : AttrList) : Bool :=
  ((a.map Prod.fst) ++ (b.map Prod.fst)).all (fun k => attrLookup a k == attrLookup b k)

/-- The remote directory store: entries keyed by DN. -/
abbrev Store := List (String × AttrList)

def GetEntry (store : Store) (dn : String) : Option AttrList :=
  (store.find? (fun p => p.1 == dn)).map Prod.snd

def putEntry : Store → String → AttrList → Store
  | [], dn, attrs => [(dn, attrs)]
  | (d, a) :: rest, dn, attrs =>
    if d == dn then (dn, attrs) :: rest else (d, a) :: putEntry rest dn attrs

/-- Typed objects handed to the client, as in the test
(`directory.OrganizationalUnit` / `directory.Group` / `directory.User`).
Empty strings stand for absent optional fields. -/
inductive DirObject
  | orgUnit (dn name description : String)
  | group (dn name description : String) (members : List String)
  | user (dn username name surname email password : String)
  deriving Repr, DecidableEq

def DirObject.distinguishedName : DirObject → String
  | .orgUnit dn _ _ => dn
  | .group dn _ _ _ => dn
  | .user dn _ _ _ _ _ => dn

/-- Modelled from the spec: the userPassword hash-scheme marker
(`userPassword` carries a salted-hash scheme marker; the test pins the
scheme to `\x7bARGON2\x7d$argon2...`). -/
def argon2SchemeMarker : String := "\x7bARGON2\x7d$argon2$"

/-- Modelled from the spec: stand-in for the memory-hard one-way function's
dependence on the plaintext.  Only the properties the claims use are
retained: it is deterministic, length-preserving and not the identity on
the stored value (the scheme marker and salt are prepended). -/
def scramble (pw : String) : String :=
  String.mk (pw.data.map (fun c => Char.ofNat (c.toNat + 1)))

/-- Modelled from the spec: hashing the password with a salt chosen fresh at
hashing time; the stored value is the scheme marker, the salt and the
scrambled plaintext. -/
def hashPassword (salt pw : String) : String :=
  argon2SchemeMarker ++ salt ++ "$" ++ scramble pw

/-- Modelled from the spec: checking a plaintext against a stored hash
(recompute using the embedded salt and compare); here the scheme marker
must lead the stored value and the scrambled plaintext must follow the
salt. -/
def verifyPassword (stored pw : String) : Bool :=
  argon2SchemeMarker.data.isPrefixOf stored.data &&
    (("$" ++ scramble pw).data).isSuffixOf stored.data

/-- Modelled from the spec: attributes whose spec field is empty/absent are
mapped to absent, never to an empty string value. -/
def optAttr (k v : String) : AttrList := if v = "" then [] else [(k, [v])]

/-- Modelled from the spec (section 4.3): the pure attribute mapper for each
object variant, excluding the password attribute. -/
def baseAttrs : DirObject → AttrList
  | .orgUnit _ name description => [("ou", [name])] ++ optAttr "description" description
  | .group _ name description members =>
    [("cn", [name])] ++ optAttr "description" description ++ [("member", members)]
  | .user _ username name surname email _ =>
    [("cn", [name]), ("sn", [surname]), ("uid", [username])] ++ optAttr "mail" email

/-- Modelled from the spec: the userPassword attribute.  On create the
plaintext is hashed with the fresh salt; on update, a stored hash that
still verifies against the desired plaintext is kept byte-for-byte (no
re-hash/re-salt), otherwise the plaintext is hashed anew. -/
def passwordAttr (salt : String) (existing : Option AttrList) : DirObject → AttrList
  | .user _ _ _ _ _ pw =>
    if pw = "" then []
    else
      match existing.bind (fun e => attrLookup e "userPassword") with
      | some [stored] =>
        if verifyPassword stored pw then [("userPassword", [stored])]
        else [("userPassword", [hashPassword salt pw])]
      | _ => [("userPassword", [hashPassword salt pw])]
  | _ => []

/-- Modelled from the spec: the full desired attribute set for an object,
given the existing entry (if any) and the salt the hash would use. -/
def desiredAttrs (salt : String) (existing : Option AttrList) (obj : DirObject) : AttrList :=
  baseAttrs obj ++ passwordAttr salt existing obj

/-- Modelled from the spec (section 4.4): `createOrUpdateEntry` — if no
entry exists at the DN, create it; otherwise diff the existing entry
against the desired one and write only when the diff is non-empty, ending
with the stored entry attribute-identical to the desired entry.  The
returned boolean follows the client test's observed semantics: it reports
whether the entry was newly created (the test asserts `false` after an
update that does apply modifications), not whether anything changed.
`salt` fixes the randomness the password hash would draw at this call. -/
def CreateOrUpdateEntry (salt : String) (store : Store) (obj : DirObject) : Store × Bool :=
  match GetEntry store obj.distinguishedName with
  | none => (putEntry store obj.distinguishedName (desiredAttrs salt none obj), true)
  | some existing =>
    let desired := desiredAttrs salt (some existing) obj
    if attrsEquiv existing desired then (store, false)
    else (putEntry store obj.distinguishedName desired, false)

/-! ### Directory client lemmas -/

theorem attrLookup_append (a b : AttrList) (k : String) :
    attrLookup (a ++ b) k = (attrLookup a k).or (attrLookup b k) := by
  unfold attrLookup
  rw [List.find?_append]
  cases a.find? (fun p => p.1 == k) <;> simp

theorem attrsEquiv_refl (a : AttrList) : attrsEquiv a a = true := by
  simp [attrsEquiv]

theorem GetEntry_putEntry_self (store : Store) (dn : String) (attrs : AttrList) :
    GetEntry (putEntry store dn attrs) dn = some attrs := by
  induction store with
  | nil => simp [putEntry, GetEntry]
  | cons hd rest ih =>
    obtain ⟨d, a⟩ := hd
    by_cases h : d = dn
    · simp [putEntry, GetEntry, h]
    · have hb : (d == dn) = false := by simp [h]
      simp only [putEntry, hb, Bool.false_eq_true, if_false]
      simpa [GetEntry, hb] using ih

theorem verifyPassword_hashPassword (salt pw : String) :
    verifyPassword (hashPassword salt pw) pw = true := by
  unfold verifyPassword hashPassword
  simp only [Bool.and_eq_true]
  constructor
  · rw [List.isPrefixOf_iff_prefix]
    simp only [String.data_append, List.append_assoc]
    exact List.prefix_append _ _
  · rw [List.isSuffixOf_iff_suffix]
    simp only [String.data_append, List.append_assoc]
    have : argon2SchemeMarker.data ++ (salt.data ++ ("$".data ++ (scramble pw).data)) =
        (argon2SchemeMarker.data ++ salt.data) ++ ("$".data ++ (scramble pw).data) := by
      simp [List.append_assoc]
    rw [this]
    exact List.suffix_append _ _

theorem hashPassword_ne_plaintext (salt pw : String) : hashPassword salt pw ≠ pw := by
  intro h
  have hlen := congrArg String.length h
  rw [hashPassword, String.length_append, String.length_append, String.length_append] at hlen
  have hsc : (scramble pw).length = pw.length := by
    unfold scramble
    show (pw.data.map _).length = pw.length
    rw [List.length_map]
    rfl
  have hmark : argon2SchemeMarker.length = 16 := rfl
  have hdollar : "$".length = 1 := rfl
  rw [hsc, hmark, hdollar] at hlen
  omega

theorem attrLookup_baseAttrs_user_userPassword
    (dn username name surname email pw : String) :
    attrLookup (baseAttrs (DirObject.user dn username name surname email pw))
      "userPassword" = none := by
  by_cases he : email = "" <;> simp [baseAttrs, optAttr, attrLookup, he]

theorem attrLookup_desiredAttrs_user_userPassword
    (salt dn username name surname email pw : String) (hpw : pw ≠ "") :
    attrLookup (desiredAttrs salt none (DirObject.user dn username name surname email pw))
      "userPassword" = some [hashPassword salt pw] := by
  unfold desiredAttrs
  rw [attrLookup_append, attrLookup_baseAttrs_user_userPassword]
  simp [passwordAttr, hpw, attrLookup]

/-- Re-deriving the desired attributes on top of an entry this client just
wrote changes nothing: the stored password hash still verifies, so it is
kept, and every other attribute is a pure function of the object. -/
theorem desiredAttrs_stable (salt1 salt2 : String) (obj : DirObject) :
    desiredAttrs salt2 (some (desiredAttrs salt1 none obj)) obj =
      desiredAttrs salt1 none obj := by
  cases obj with
  | orgUnit dn name description => rfl
  | group dn name description members => rfl
  | user dn username name surname email pw =>
    show baseAttrs (DirObject.user dn username name surname email pw) ++
        passwordAttr salt2
          (some (desiredAttrs salt1 none (DirObject.user dn username name surname email pw)))
          (DirObject.user dn username name surname email pw) =
      baseAttrs (DirObject.user dn username name surname email pw) ++
        passwordAttr salt1 none (DirObject.user dn username name surname email pw)
    congr 1
    by_cases hpw : pw = ""
    · simp [passwordAttr, hpw]
    · have hlook := attrLookup_desiredAttrs_user_userPassword salt1 dn username name surname email pw hpw
      simp [passwordAttr, hpw, hlook, verifyPassword_hashPassword]

/-- The group entry the client test creates. -/
def sampleGroupObj : DirObject :=
  DirObject.group "cn=admins,dc=example,dc=com" "admins" "Test Admins"
    ["cn=admin,dc=example,dc=com"]

/-! ### Claim C4: createOrUpdateEntry is an idempotent upsert -/

/-- C4: with no entry at the DN, `createOrUpdateEntry` creates the entry
(returning true) and stores exactly the desired attributes; calling it again
with the same desired object — whatever salt the second call's hash would
draw — returns false, leaves the store untouched, and the stored entry is
attribute-identical to the second call's desired entry. -/
theorem createOrUpdateEntry_idempotent_upsert (store : Store) (obj : DirObject)
    (salt1 salt2 : String)
    (hnew : GetEntry store obj.distinguishedName = none) :
    (CreateOrUpdateEntry salt1 store obj).2 = true ∧
    GetEntry (CreateOrUpdateEntry salt1 store obj).1 obj.distinguishedName =
      some (desiredAttrs salt1 none obj) ∧
    (CreateOrUpdateEntry salt2 (CreateOrUpdateEntry salt1 store obj).1 obj).2 = false ∧
    (CreateOrUpdateEntry salt2 (CreateOrUpdateEntry salt1 store obj).1 obj).1 =
      (CreateOrUpdateEntry salt1 store obj).1 ∧
    GetEntry (CreateOrUpdateEntry salt2 (CreateOrUpdateEntry salt1 store obj).1 obj).1
        obj.distinguishedName =
      some (desiredAttrs salt2 (some (desiredAttrs salt1 none obj)) obj) := by
  have h1 : CreateOrUpdateEntry salt1 store obj =
      (putEntry store obj.distinguishedName (desiredAttrs salt1 none obj), true) := by
    unfold CreateOrUpdateEntry
    rw [hnew]
  have hget1 : GetEntry (CreateOrUpdateEntry salt1 store obj).1 obj.distinguishedName =
      some (desiredAttrs salt1 none obj) := by
    rw [h1]
    exact GetEntry_putEntry_self _ _ _
  have h2 : ∀ s1 : Store, GetEntry s1 obj.distinguishedName = some (desiredAttrs salt1 none obj) →
      CreateOrUpdateEntry salt2 s1 obj = (s1, false) := by
    intro s1 hg
    unfold CreateOrUpdateEntry
    rw [hg]
    simp only [desiredAttrs_stable, attrsEquiv_refl, if_true]
  refine ⟨by rw [h1], hget1, by rw [h2 _ hget1], by rw [h2 _ hget1], ?_⟩
  rw [h2 _ hget1]
  rw [hget1, desiredAttrs_stable]

/-- Witness for C4 at a concrete group object in an empty store. -/
theorem createOrUpdateEntry_idempotent_upsert_witness :
    (CreateOrUpdateEntry "s1" [] sampleGroupObj).2 = true ∧
    GetEntry (CreateOrUpdateEntry "s1" [] sampleGroupObj).1 sampleGroupObj.distinguishedName =
      some (desiredAttrs "s1" none sampleGroupObj) ∧
    (CreateOrUpdateEntry "s2" (CreateOrUpdateEntry "s1" [] sampleGroupObj).1 sampleGroupObj).2 =
      false ∧
    (CreateOrUpdateEntry "s2" (CreateOrUpdateEntry "s1" [] sampleGroupObj).1 sampleGroupObj).1 =
      (CreateOrUpdateEntry "s1" [] sampleGroupObj).1 ∧
    GetEntry (CreateOrUpdateEntry "s2"
        (CreateOrUpdateEntry "s1" [] sampleGroupObj).1 sampleGroupObj).1
        sampleGroupObj.distinguishedName =
      some (desiredAttrs "s2" (some (desiredAttrs "s1" none sampleGroupObj)) sampleGroupObj) :=
  createOrUpdateEntry_idempotent_upsert [] sampleGroupObj "s1" "s2" rfl

/-! ### Claim C5: emptied optional attributes are removed, never stored empty -/

/-- The password attribute never contributes keys other than userPassword. -/
theorem attrLookup_passwordAttr_other (salt : String) (ex : Option AttrList)
    (obj : DirObject) (k : String) (hk : k ≠ "userPassword") :
    attrLookup (passwordAttr salt ex obj) k = none := by
  have hb : ("userPassword" == k) = false := by
    simp [Ne.symm hk]
  cases obj with
  | orgUnit dn name description => rfl
  | group dn name description members => rfl
  | user dn username name surname email pw =>
    by_cases hpw : pw = ""
    · simp [passwordAttr, hpw, attrLookup]
    · simp only [passwordAttr, hpw, if_false]
      rcases hlk : ex.bind (fun e => attrLookup e "userPassword") with _ | vs
      · simp [attrLookup, hb]
      · match vs with
        | [] => simp [attrLookup, hb]
        | [stored] =>
          by_cases hv : verifyPassword stored pw <;> simp [attrLookup, hb, hv]
        | a :: b :: rest => simp [attrLookup, hb]

/-- C5: an optional attribute (description here) that was set and is absent
from the next desired entry is removed from the stored entry entirely; and
the mapper sends empty optional fields (description, mail) to absent —
never an empty-string value — so no stored entry ever carries one. -/
theorem optional_attribute_removed (store : Store) (dn name d1 salt1 salt2 : String)
    (hne : d1 ≠ "") (hnew : GetEntry store dn = none) :
    attrLookup ((GetEntry (CreateOrUpdateEntry salt1 store
        (DirObject.orgUnit dn name d1)).1 dn).getD []) "description" = some [d1] ∧
    attrLookup ((GetEntry (CreateOrUpdateEntry salt2
        (CreateOrUpdateEntry salt1 store (DirObject.orgUnit dn name d1)).1
        (DirObject.orgUnit dn name "")).1 dn).getD []) "description" = none ∧
    (∀ (obj : DirObject) (salt : String) (ex : Option AttrList) (vs : List String),
      (attrLookup (desiredAttrs salt ex obj) "description" = some vs ∨
       attrLookup (desiredAttrs salt ex obj) "mail" = some vs) → "" ∉ vs) := by
  have hD1 : desiredAttrs salt1 none (DirObject.orgUnit dn name d1) =
      [("ou", [name]), ("description", [d1])] := by
    simp [desiredAttrs, baseAttrs, optAttr, passwordAttr, hne]
  have hD2 : desiredAttrs salt2 (some [("ou", [name]), ("description", [d1])])
      (DirObject.orgUnit dn name "") = [("ou", [name])] := by
    simp [desiredAttrs, baseAttrs, optAttr, passwordAttr]
  have h1 : CreateOrUpdateEntry salt1 store (DirObject.orgUnit dn name d1) =
      (putEntry store dn [("ou", [name]), ("description", [d1])], true) := by
    unfold CreateOrUpdateEntry
    simp only [DirObject.distinguishedName]
    rw [hnew, hD1]
  have hget1 : GetEntry (CreateOrUpdateEntry salt1 store (DirObject.orgUnit dn name d1)).1 dn =
      some [("ou", [name]), ("description", [d1])] := by
    rw [h1]
    exact GetEntry_putEntry_self _ _ _
  have hEqF : attrsEquiv [("ou", [name]), ("description", [d1])] [("ou", [name])] = false := by
    simp [attrsEquiv, attrLookup]
  have h2 : CreateOrUpdateEntry salt2
      (CreateOrUpdateEntry salt1 store (DirObject.orgUnit dn name d1)).1
      (DirObject.orgUnit dn name "") =
      (putEntry (CreateOrUpdateEntry salt1 store (DirObject.orgUnit dn name d1)).1 dn
        [("ou", [name])], false) := by
    generalize hs1 : (CreateOrUpdateEntry salt1 store (DirObject.orgUnit dn name d1)).1 = s1
    rw [hs1] at hget1
    unfold CreateOrUpdateEntry
    simp only [DirObject.distinguishedName]
    rw [hget1]
    simp only [hD2, hEqF, Bool.false_eq_true, if_false]
  refine ⟨?_, ?_, ?_⟩
  · rw [hget1]
    simp [attrLookup, hne]
  · rw [h2]
    simp only [GetEntry_putEntry_self, Option.getD_some]
    simp [attrLookup]
  · intro obj salt ex vs h
    cases obj with
    | orgUnit odn oname odesc =>
      by_cases hd : odesc = ""
      · rcases h with h | h <;>
          simp [desiredAttrs, baseAttrs, optAttr, passwordAttr, attrLookup, hd] at h
      · rcases h with h | h
        · simp [desiredAttrs, baseAttrs, optAttr, passwordAttr, attrLookup, hd] at h
          subst h
          simp only [List.mem_singleton]
          exact fun hh => hd hh.symm
        · simp [desiredAttrs, baseAttrs, optAttr, passwordAttr, attrLookup, hd] at h
    | group gdn gname gdesc gmembers =>
      by_cases hd : gdesc = ""
      · rcases h with h | h <;>
          simp [desiredAttrs, baseAttrs, optAttr, passwordAttr, attrLookup, hd] at h
      · rcases h with h | h
        · simp [desiredAttrs, baseAttrs, optAttr, passwordAttr, attrLookup, hd] at h
          subst h
          simp only [List.mem_singleton]
          exact fun hh => hd hh.symm
        · simp [desiredAttrs, baseAttrs, optAttr, passwordAttr, attrLookup, hd] at h
    | user udn uuser uname usurname uemail upw =>
      have hd := attrLookup_passwordAttr_other salt ex
        (DirObject.user udn uuser uname usurname uemail upw) "description" (by decide)
      have hm := attrLookup_passwordAttr_other salt ex
        (DirObject.user udn uuser uname usurname uemail upw) "mail" (by decide)
      rcases h with h | h
      · rw [desiredAttrs, attrLookup_append, hd] at h
        by_cases he : uemail = "" <;> simp [baseAttrs, optAttr, attrLookup, he] at h
      · rw [desiredAttrs, attrLookup_append, hm] at h
        by_cases he : uemail = ""
        · simp [baseAttrs, optAttr, attrLookup, he] at h
        · simp [baseAttrs, optAttr, attrLookup, he] at h
          subst h
          simp only [List.mem_singleton]
          exact fun hh => he hh.symm

/-- Witness for C5: concrete OU whose description `Test Users` is then
removed. -/
theorem optional_attribute_removed_witness :
    attrLookup ((GetEntry (CreateOrUpdateEntry "s1" []
        (DirObject.orgUnit "ou=users,dc=example,dc=com" "users" "Test Users")).1
        "ou=users,dc=example,dc=com").getD []) "description" = some ["Test Users"] ∧
    attrLookup ((GetEntry (CreateOrUpdateEntry "s2"
        (CreateOrUpdateEntry "s1" []
          (DirObject.orgUnit "ou=users,dc=example,dc=com" "users" "Test Users")).1
        (DirObject.orgUnit "ou=users,dc=example,dc=com" "users" "")).1
        "ou=users,dc=example,dc=com").getD []) "description" = none ∧
    (∀ (obj : DirObject) (salt : String) (ex : Option AttrList) (vs : List String),
      (attrLookup (desiredAttrs salt ex obj) "description" = some vs ∨
       attrLookup (desiredAttrs salt ex obj) "mail" = some vs) → "" ∉ vs) :=
  optional_attribute_removed [] "ou=users,dc=example,dc=com" "users" "Test Users" "s1" "s2"
    (by decide) rfl

/-! ### Claim C6: the password is stored hashed with the scheme marker and never re-hashed -/

/-- The stored hash leads with the configured scheme marker. -/
theorem hashPassword_has_marker (salt pw : String) :
    argon2SchemeMarker.data.isPrefixOf (hashPassword salt pw).data = true := by
  unfold hashPassword
  rw [List.isPrefixOf_iff_prefix]
  simp only [String.data_append, List.append_assoc]
  exact List.prefix_append _ _

/-- C6: creating a user with a password stores a userPassword that is the
scheme-marked hash — never the plaintext — and a second upsert for the same
user with the same password field (any other email, any fresh salt) leaves
the stored hash byte-for-byte unchanged. -/
theorem user_password_hashed_and_stable (store : Store)
    (dn username name surname email email2 pw salt1 salt2 : String)
    (hpw : pw ≠ "") (hnew : GetEntry store dn = none) :
    attrLookup ((GetEntry (CreateOrUpdateEntry salt1 store
        (DirObject.user dn username name surname email pw)).1 dn).getD [])
      "userPassword" = some [hashPassword salt1 pw] ∧
    argon2SchemeMarker.data.isPrefixOf (hashPassword salt1 pw).data = true ∧
    hashPassword salt1 pw ≠ pw ∧
    attrLookup ((GetEntry (CreateOrUpdateEntry salt2
        (CreateOrUpdateEntry salt1 store (DirObject.user dn username name surname email pw)).1
        (DirObject.user dn username name surname email2 pw)).1 dn).getD [])
      "userPassword" = some [hashPassword salt1 pw] := by
  have h1 : CreateOrUpdateEntry salt1 store (DirObject.user dn username name surname email pw) =
      (putEntry store dn
        (desiredAttrs salt1 none (DirObject.user dn username name surname email pw)), true) := by
    unfold CreateOrUpdateEntry
    simp only [DirObject.distinguishedName]
    rw [hnew]
  have hget1 : GetEntry
      (CreateOrUpdateEntry salt1 store (DirObject.user dn username name surname email pw)).1 dn =
      some (desiredAttrs salt1 none (DirObject.user dn username name surname email pw)) := by
    rw [h1]
    exact GetEntry_putEntry_self _ _ _
  have hlook1 := attrLookup_desiredAttrs_user_userPassword salt1 dn username name surname email pw hpw
  have hpa2 : passwordAttr salt2
      (some (desiredAttrs salt1 none (DirObject.user dn username name surname email pw)))
      (DirObject.user dn username name surname email2 pw) =
      [("userPassword", [hashPassword salt1 pw])] := by
    simp [passwordAttr, hpw, hlook1, verifyPassword_hashPassword]
  have hlook2 : attrLookup (desiredAttrs salt2
      (some (desiredAttrs salt1 none (DirObject.user dn username name surname email pw)))
      (DirObject.user dn username name surname email2 pw)) "userPassword" =
      some [hashPassword salt1 pw] := by
    rw [desiredAttrs, attrLookup_append, attrLookup_baseAttrs_user_userPassword, hpa2]
    simp [attrLookup]
  refine ⟨by rw [hget1]; simpa using hlook1, hashPassword_has_marker salt1 pw,
    hashPassword_ne_plaintext salt1 pw, ?_⟩
  generalize hs1 : (CreateOrUpdateEntry salt1 store
      (DirObject.user dn username name surname email pw)).1 = s1
  rw [hs1] at hget1
  by_cases hEq : attrsEquiv
      (desiredAttrs salt1 none (DirObject.user dn username name surname email pw))
      (desiredAttrs salt2
        (some (desiredAttrs salt1 none (DirObject.user dn username name surname email pw)))
        (DirObject.user dn username name surname email2 pw)) = true
  · have h2 : CreateOrUpdateEntry salt2 s1 (DirObject.user dn username name surname email2 pw) =
        (s1, false) := by
      unfold CreateOrUpdateEntry
      simp only [DirObject.distinguishedName]
      rw [hget1]
      simp only [hEq, if_true]
    rw [h2]
    simp only [hget1, Option.getD_some]
    simpa using hlook1
  · have h2 : CreateOrUpdateEntry salt2 s1 (DirObject.user dn username name surname email2 pw) =
        (putEntry s1 dn (desiredAttrs salt2
          (some (desiredAttrs salt1 none (DirObject.user dn username name surname email pw)))
          (DirObject.user dn username name surname email2 pw)), false) := by
      unfold CreateOrUpdateEntry
      simp only [DirObject.distinguishedName]
      rw [hget1]
      simp only [hEq]
      simp
    rw [h2]
    simp only [GetEntry_putEntry_self, Option.getD_some]
    exact hlook2

/-- Witness for C6: the test's user `John Doe` with password `changeme`,
created and then re-upserted with the email removed. -/
theorem user_password_hashed_and_stable_witness :
    attrLookup ((GetEntry (CreateOrUpdateEntry "s1" []
        (DirObject.user "uid=other,dc=example,dc=com" "other" "John Doe" "Doe"
          "john@example.com" "changeme")).1 "uid=other,dc=example,dc=com").getD [])
      "userPassword" = some [hashPassword "s1" "changeme"] ∧
    argon2SchemeMarker.data.isPrefixOf (hashPassword "s1" "changeme").data = true ∧
    hashPassword "s1" "changeme" ≠ "changeme" ∧
    attrLookup ((GetEntry (CreateOrUpdateEntry "s2"
        (CreateOrUpdateEntry "s1" []
          (DirObject.user "uid=other,dc=example,dc=com" "other" "John Doe" "Doe"
            "john@example.com" "changeme")).1
        (DirObject.user "uid=other,dc=example,dc=com" "other" "John Doe" "Doe"
          "" "changeme")).1 "uid=other,dc=example,dc=com").getD [])
      "userPassword" = some [hashPassword "s1" "changeme"] :=
  user_password_hashed_and_stable [] "uid=other,dc=example,dc=com" "other" "John Doe" "Doe"
    "john@example.com" "" "changeme" "s1" "s2" (by decide) rfl

end LdapOperator
